import Mathlib

/-!
Shallow embedding of the analytics-cpp client core (header `src/analytics.h`
plus the event queuing / serialization / delivery pipeline described in the
specification).  The public header declares the data model (`EventType`,
`Event`, `HttpRequest`, `HttpResponse`, `HttpError`, `SocketError`, the
`Analytics` facade); the bodies of the pipeline live outside the sources
available here, so those operations are modelled faithfully from the
specification's words and marked `Modelled from the spec:`.
-/

namespace Segment

/-- Event kinds, from the `EventType` enum of `analytics.h`. -/
inductive EventType where
  | EVENT_TYPE_IDENTIFY
  | EVENT_TYPE_TRACK
  | EVENT_TYPE_PAGE
  | EVENT_TYPE_SCREEN
  | EVENT_TYPE_GROUP
  | EVENT_TYPE_ALIAS
deriving DecidableEq, Repr

/-- The `Event` class of `analytics.h`: public string fields, an ordered
string-to-string `properties` map (modelled as an association list), and a
private `type` field that only the constructor sets. -/
structure Event where
  type : EventType
  userId : String := ""
  event : String := ""
  groupId : String := ""
  anonymousId : String := ""
  previousId : String := ""
  properties : List (String × String) := []
deriving DecidableEq, Repr

/-- The `Event(EventType)` constructor: fixes the kind, leaves every public
field empty. -/
def Event.create (t : EventType) : Event := { type := t }

/-- Modelled from the spec: the `type` discriminator string carried by each
serialized event object, one of the six kinds. -/
def EventType.typeName : EventType → String
  | .EVENT_TYPE_IDENTIFY => "identify"
  | .EVENT_TYPE_TRACK => "track"
  | .EVENT_TYPE_PAGE => "page"
  | .EVENT_TYPE_SCREEN => "screen"
  | .EVENT_TYPE_GROUP => "group"
  | .EVENT_TYPE_ALIAS => "alias"

/-- Modelled from the spec: `Event::Type()` returns the discriminator string
of the kind the event was constructed with (its body is not among the
sources; only its declaration in `analytics.h` is). -/
def Event.typeString (e : Event) : String := e.type.typeName

/-- Assignment to the public `userId` field of an `Event`. -/
def Event.withUserId (e : Event) (v : String) : Event := { e with userId := v }

/-- Assignment to the public `event` field of an `Event`. -/
def Event.withEvent (e : Event) (v : String) : Event := { e with event := v }

/-- Assignment to the public `groupId` field of an `Event`. -/
def Event.withGroupId (e : Event) (v : String) : Event := { e with groupId := v }

/-- Assignment to the public `anonymousId` field of an `Event`. -/
def Event.withAnonymousId (e : Event) (v : String) : Event := { e with anonymousId := v }

/-- Assignment to the public `previousId` field of an `Event`. -/
def Event.withPreviousId (e : Event) (v : String) : Event := { e with previousId := v }

/-- Assignment to the public `properties` field of an `Event`. -/
def Event.withProperties (e : Event) (v : List (String × String)) : Event := { e with properties := v }

/-- A JSON string member, `"name":"value"`. -/
def jsonMember (name value : String) : String :=
  "\"" ++ name ++ "\":\"" ++ value ++ "\""

/-- Comma-join a list of already-rendered JSON fragments. -/
def joinComma : List String → String
  | [] => ""
  | [x] => x
  | x :: xs => x ++ "," ++ joinComma xs

/-- Modelled from the spec: the populated fields of an event, in a fixed
order; absent (empty) fields are not emitted with placeholder values. -/
def Event.populatedFields (e : Event) : List (String × String) :=
  (if e.userId = "" then [] else [("userId", e.userId)]) ++
  (if e.anonymousId = "" then [] else [("anonymousId", e.anonymousId)]) ++
  (if e.previousId = "" then [] else [("previousId", e.previousId)]) ++
  (if e.groupId = "" then [] else [("groupId", e.groupId)]) ++
  (if e.event = "" then [] else [("event", e.event)]) ++
  e.properties.map (fun p => ("properties." ++ p.1, p.2))

/-- Modelled from the spec: `EventCodec` serialization of one event — a
JSON-like object tagged with the `type` discriminator and carrying only the
populated fields.  (`Event::Serialize` is declared in `analytics.h`; its body
is not among the sources.) -/
def Event.serializeOne (e : Event) : String :=
  "\x7b" ++ joinComma (jsonMember "type" e.typeString ::
    (e.populatedFields.map (fun p => jsonMember p.1 p.2))) ++ "\x7d"

/-- Modelled from the spec: `EventCodec.Serialize` over a batch — an object
containing the write key and the ordered array of event objects.  A pure
function of its arguments. -/
def Serialize (writeKey : String) (batch : List Event) : String :=
  "\x7b" ++ jsonMember "writeKey" writeKey ++ ",\"batch\":[" ++
    joinComma (batch.map Event.serializeOne) ++ "]\x7d"

/-- The `HttpRequest` class of `analytics.h` (headers as an ordered map,
modelled as an association list; the body as a string of bytes). -/
structure HttpRequest where
  Method : String
  URL : String
  Headers : List (String × String)
  Body : String
deriving DecidableEq, Repr

/-- The `HttpResponse` class of `analytics.h`.  `Code` is the HTTP status
code, or 0 when the request could not be delivered or no valid response was
obtained, in which case `Message` holds an error message. -/
structure HttpResponse where
  Code : Nat
  Message : String
  Headers : List (String × String) := []
  Body : String := ""
deriving DecidableEq, Repr

/-- A transport-level failure (DNS, connect, timeout): the situation the
`SocketError` exception of `analytics.h` describes — no response obtained. -/
structure SocketFailure where
  message : String
deriving DecidableEq, Repr

/-- Modelled from the spec: the `Transport` capability — given a request,
produce a response or fail with a socket-level error. -/
def Transport : Type := HttpRequest → Except SocketFailure HttpResponse

/-- Modelled from the spec: the raw outcome an `HttpHandler` implementation
obtains from the underlying exchange — `none` when the request could not be
delivered to the server or no valid response could be obtained. -/
def RawOutcome : Type := Option HttpResponse

/-- Modelled from the spec and the `HttpResponse` field documentation of
`analytics.h`: how a handler fills in the `HttpResponse` it produces — code 0
plus an explanatory message when no valid response was obtained, the server's
status code otherwise. -/
def fillResponse : RawOutcome → HttpResponse
  | none => { Code := 0, Message := "request could not be delivered to the server" }
  | some r => r

/-- The error taxonomy of a `DeliveryResult`. -/
inductive ErrorKind where
  | http
  | socket
  | transport
deriving DecidableEq, Repr

/-- Modelled from the spec: the `DeliveryResult` record produced once per
delivery attempt. -/
structure DeliveryResult where
  success : Bool
  httpStatus : Option Nat
  errorKind : Option ErrorKind
  message : String
deriving DecidableEq, Repr

/-- Whether a status code lies in the 2xx range. -/
def is2xx (c : Nat) : Bool := 200 ≤ c && c < 300

/-- Modelled from the spec: classification of a transport outcome into a
`DeliveryResult`: no response means a socket error; a non-2xx response means
an HTTP error carrying the status; a 2xx response means success. -/
def classifyOutcome : Except SocketFailure HttpResponse → DeliveryResult
  | .error e => { success := false, httpStatus := none, errorKind := some .socket, message := e.message }
  | .ok r =>
    if is2xx r.Code then
      { success := true, httpStatus := some r.Code, errorKind := none, message := r.Message }
    else
      { success := false, httpStatus := some r.Code, errorKind := some .http, message := r.Message }

/-- Configuration held by the `Analytics` facade: the write key and host from
its constructor, plus the batching threshold the spec leaves configurable. -/
structure Config where
  writeKey : String
  host : String
  batchThreshold : Nat
deriving Repr

/-- Modelled from the spec: the fixed API path appended to the host. -/
def apiPath : String := "/v1/batch"

/-- Modelled from the spec: the basic-auth-style credential derived from the
write key. -/
def basicAuth (writeKey : String) : String := "Basic " ++ writeKey

/-- Modelled from the spec: the HTTP request a `DeliveryWorker` builds for a
batch — method fixed to POST, URL = host + fixed API path, a content-type
header and the write-key credential, body = the `EventCodec` output. -/
def buildRequest (cfg : Config) (batch : List Event) : HttpRequest :=
  { Method := "POST",
    URL := cfg.host ++ apiPath,
    Headers := [("Content-Type", "application/json"),
                ("Authorization", basicAuth cfg.writeKey)],
    Body := Serialize cfg.writeKey batch }

namespace DeliveryWorker

/-- Modelled from the spec: `DeliveryWorker.Attempt` — build the request,
invoke the transport, classify the outcome. -/
def Attempt (t : Transport) (cfg : Config) (batch : List Event) : DeliveryResult :=
  classifyOutcome (t (buildRequest cfg batch))

end DeliveryWorker

/-- A queued event together with the identity the queue assigned it when it
was accepted; the identity distinguishes event instances with equal payloads. -/
structure PendingEvent where
  id : Nat
  ev : Event
deriving DecidableEq, Repr

/-- Modelled from the spec: the cheap per-event serialized-size estimate that
`DrainUpTo` uses to bound a batch without re-serializing twice. -/
def sizeEstimate (e : Event) : Nat := e.serializeOne.length

namespace EventQueue

/-- Modelled from the spec: greedy extraction of the longest prefix whose
cumulative size estimate fits the byte budget; returns the extracted prefix
and the remaining items. -/
def takeWithin (maxBytes : Nat) : List PendingEvent → List PendingEvent × List PendingEvent
  | [] => ([], [])
  | p :: rest =>
    if sizeEstimate p.ev ≤ maxBytes then
      let r := takeWithin (maxBytes - sizeEstimate p.ev) rest
      (p :: r.1, r.2)
    else
      ([], p :: rest)

/-- The `EventQueue` state: a fresh-identity counter, the pending items in
submission order, and the history of batches removed by `DrainUpTo` (kept so
the at-most-once extraction invariant can be stated). -/
structure State where
  nextId : Nat
  items : List PendingEvent
  history : List (List PendingEvent)
deriving Repr

/-- The empty queue. -/
def init : State := { nextId := 0, items := [], history := [] }

/-- Modelled from the spec: `Enqueue` appends in submission order, assigning
the event a fresh identity; it never blocks and never fails. -/
def Enqueue (e : Event) (s : State) : State :=
  { s with nextId := s.nextId + 1, items := s.items ++ [⟨s.nextId, e⟩] }

/-- Modelled from the spec: `DrainUpTo(maxBytes)` atomically removes and
returns a prefix of queued events whose estimated serialized size does not
exceed the budget; the removed batch is recorded in the drain history. -/
def DrainUpTo (maxBytes : Nat) (s : State) : State :=
  let r := takeWithin maxBytes s.items
  { s with items := r.2, history := s.history ++ [r.1] }

/-- Modelled from the spec: `Size()` returns the current queue depth. -/
def Size (s : State) : Nat := s.items.length

/-- One producer or drain operation on the queue. -/
inductive Op where
  | enq (e : Event)
  | drain (maxBytes : Nat)

/-- Apply one operation. -/
def step (s : State) : Op → State
  | .enq e => Enqueue e s
  | .drain m => DrainUpTo m s

/-- Run a sequence of operations from the empty queue. -/
def run (ops : List Op) : State := ops.foldl step init

/-- The queue's identity discipline: every identity among the drained
batches and the pending items occurs once, and all are below the counter. -/
def WF (s : State) : Prop :=
  ((s.history.flatten ++ s.items).map PendingEvent.id).Nodup ∧
  ∀ p ∈ s.history.flatten ++ s.items, p.id < s.nextId

end EventQueue

/-- The `Analytics`-equivalent dispatcher state: the fresh-identity counter,
the pending queue, the flattened list of events handed to delivery attempts
(in the order attempted), and the results of those attempts. -/
structure DispatcherState where
  nextId : Nat
  queue : List PendingEvent
  attempted : List PendingEvent
  results : List DeliveryResult
deriving Repr

namespace Dispatcher

/-- The dispatcher's initial state. -/
def init : DispatcherState := { nextId := 0, queue := [], attempted := [], results := [] }

/-- Enqueue one event with a fresh identity. -/
def enqueue (e : Event) (s : DispatcherState) : DispatcherState :=
  { s with nextId := s.nextId + 1, queue := s.queue ++ [⟨s.nextId, e⟩] }

/-- Enqueue a list of events in order. -/
def enqueueAll (late : List Event) (s : DispatcherState) : DispatcherState :=
  late.foldl (fun st e => enqueue e st) s

/-- Modelled from the spec: a drain-and-deliver pass — everything currently
queued is drained as one batch and handed to exactly one
`DeliveryWorker.Attempt`, whose result (success or failure) is recorded; an
empty queue causes no transport invocation. -/
def deliverAll (t : Transport) (cfg : Config) (s : DispatcherState) : DispatcherState :=
  if s.queue.isEmpty then s
  else
    { s with queue := [],
             attempted := s.attempted ++ s.queue,
             results := s.results ++ [DeliveryWorker.Attempt t cfg (s.queue.map PendingEvent.ev)] }

/-- Modelled from the spec: `Submit` enqueues without blocking and, when the
queue depth reaches the batching threshold, schedules a delivery pass whose
result is folded into the dispatcher state, never surfaced to the caller. -/
def Submit (t : Transport) (cfg : Config) (e : Event) (s : DispatcherState) : DispatcherState :=
  let s' := enqueue e s
  if cfg.batchThreshold ≤ s'.queue.length then deliverAll t cfg s' else s'

/-- Modelled from the spec: `Flush(wait=true)` — the events queued at call
time (the snapshot) are drained and handed to a `DeliveryWorker.Attempt`, the
caller blocks until that attempt has returned (success or failure), and the
events submitted by concurrent producers while the flush is in progress
(`late`) are enqueued but not waited upon. -/
def FlushWait (t : Transport) (cfg : Config) (late : List Event) (s : DispatcherState) : DispatcherState :=
  enqueueAll late (deliverAll t cfg s)

/-- Modelled from the spec: `Flush(wait=false)` schedules an asynchronous
drain-and-deliver pass over everything currently queued; the sequential model
performs the pass. -/
def FlushNoWait (t : Transport) (cfg : Config) (s : DispatcherState) : DispatcherState :=
  deliverAll t cfg s

/-- One dispatcher operation. -/
inductive Op where
  | submit (e : Event)
  | flushNoWait
  | flushWait (late : List Event)

/-- Apply one operation. -/
def step (t : Transport) (cfg : Config) (s : DispatcherState) : Op → DispatcherState
  | .submit e => Submit t cfg e s
  | .flushNoWait => FlushNoWait t cfg s
  | .flushWait late => FlushWait t cfg late s

/-- Run a sequence of operations from the initial state. -/
def run (t : Transport) (cfg : Config) (ops : List Op) : DispatcherState :=
  ops.foldl (step t cfg) init

/-- The dispatcher's identity discipline: every identity among the attempted
events and the pending queue occurs once, and all are below the counter. -/
def WF (s : DispatcherState) : Prop :=
  ((s.attempted ++ s.queue).map PendingEvent.id).Nodup ∧
  ∀ p ∈ s.attempted ++ s.queue, p.id < s.nextId

end Dispatcher

/-- The error channel of the `analytics.h` exception taxonomy (`HttpError`
carrying an HTTP code, `SocketError` carrying a system message); present in
the model only to express that the event-submitting calls never raise it. -/
inductive DeliveryError where
  | http (code : Nat) (message : String)
  | socket (message : String)
deriving DecidableEq, Repr

namespace Analytics

/-- Modelled from the spec: the public `Submit` call — enqueue (and possibly
trigger a delivery pass); delivery failures are folded into the dispatcher
state, never raised to the caller. -/
def SubmitEvent (t : Transport) (cfg : Config) (e : Event) (s : DispatcherState) :
    Except DeliveryError DispatcherState :=
  .ok (Dispatcher.Submit t cfg e s)

/-- The event assembled by `Analytics::Track`. -/
def mkTrack (userId event : String) (properties : List (String × String)) : Event :=
  { type := .EVENT_TYPE_TRACK, userId := userId, event := event, properties := properties }

/-- The event assembled by `Analytics::Identify`. -/
def mkIdentify (userId : String) (traits : List (String × String)) : Event :=
  { type := .EVENT_TYPE_IDENTIFY, userId := userId, properties := traits }

/-- The event assembled by `Analytics::Page`. -/
def mkPage (event userId : String) (properties : List (String × String)) : Event :=
  { type := .EVENT_TYPE_PAGE, userId := userId, event := event, properties := properties }

/-- The event assembled by `Analytics::Screen`. -/
def mkScreen (event userId : String) (properties : List (String × String)) : Event :=
  { type := .EVENT_TYPE_SCREEN, userId := userId, event := event, properties := properties }

/-- The event assembled by `Analytics::Group`. -/
def mkGroup (groupId : String) (properties : List (String × String)) : Event :=
  { type := .EVENT_TYPE_GROUP, groupId := groupId, properties := properties }

/-- The event assembled by `Analytics::Alias`. -/
def mkAlias (previousId userId : String) : Event :=
  { type := .EVENT_TYPE_ALIAS, userId := userId, previousId := previousId }

/-- `Analytics::Track`: assemble the event and submit it; never raises. -/
def Track (t : Transport) (cfg : Config) (userId event : String)
    (properties : List (String × String)) (s : DispatcherState) :
    Except DeliveryError DispatcherState :=
  SubmitEvent t cfg (mkTrack userId event properties) s

/-- `Analytics::Identify`: assemble the event and submit it; never raises. -/
def Identify (t : Transport) (cfg : Config) (userId : String)
    (traits : List (String × String)) (s : DispatcherState) :
    Except DeliveryError DispatcherState :=
  SubmitEvent t cfg (mkIdentify userId traits) s

/-- `Analytics::Page`: assemble the event and submit it; never raises. -/
def Page (t : Transport) (cfg : Config) (event userId : String)
    (properties : List (String × String)) (s : DispatcherState) :
    Except DeliveryError DispatcherState :=
  SubmitEvent t cfg (mkPage event userId properties) s

/-- `Analytics::Screen`: assemble the event and submit it; never raises. -/
def Screen (t : Transport) (cfg : Config) (event userId : String)
    (properties : List (String × String)) (s : DispatcherState) :
    Except DeliveryError DispatcherState :=
  SubmitEvent t cfg (mkScreen event userId properties) s

/-- `Analytics::Group`: assemble the event and submit it; never raises. -/
def Group (t : Transport) (cfg : Config) (groupId : String)
    (properties : List (String × String)) (s : DispatcherState) :
    Except DeliveryError DispatcherState :=
  SubmitEvent t cfg (mkGroup groupId properties) s

/-- `Analytics::Alias`: assemble the event and submit it; never raises. -/
def Alias (t : Transport) (cfg : Config) (previousId userId : String)
    (s : DispatcherState) : Except DeliveryError DispatcherState :=
  SubmitEvent t cfg (mkAlias previousId userId) s

end Analytics

namespace EventQueue

theorem takeWithin_eq (m : Nat) (l : List PendingEvent) :
    (takeWithin m l).1 ++ (takeWithin m l).2 = l := by
  induction l generalizing m with
  | nil => simp [takeWithin]
  | cons p rest ih =>
    by_cases h : sizeEstimate p.ev ≤ m
    · simp [takeWithin, h, ih]
    · simp [takeWithin, h]

theorem queue_WF_init : WF init := by
  refine ⟨?_, ?_⟩ <;> simp [WF, init]

theorem queue_WF_enqueue (e : Event) (s : State) (h : WF s) : WF (Enqueue e s) := by
  obtain ⟨h1, h2⟩ := h
  refine ⟨?_, ?_⟩
  · have hmap : ((Enqueue e s).history.flatten ++ (Enqueue e s).items).map PendingEvent.id
        = ((s.history.flatten ++ s.items).map PendingEvent.id) ++ [s.nextId] := by
      simp [Enqueue]
    rw [hmap]
    refine List.Nodup.append h1 (List.nodup_singleton _) ?_
    intro a ha hb
    rcases List.mem_map.mp ha with ⟨p, hp, hpid⟩
    have hlt := h2 p hp
    simp at hb
    omega
  · intro p hp
    simp only [Enqueue, ← List.append_assoc, List.mem_append, List.mem_singleton] at hp
    rcases hp with hp | hp
    · exact Nat.lt_succ_of_lt (h2 p (List.mem_append.mpr hp))
    · subst hp; exact Nat.lt_succ_self _

theorem queue_WF_drain (m : Nat) (s : State) (h : WF s) : WF (DrainUpTo m s) := by
  obtain ⟨h1, h2⟩ := h
  have key : (DrainUpTo m s).history.flatten ++ (DrainUpTo m s).items
      = s.history.flatten ++ s.items := by
    simp only [DrainUpTo, List.flatten_append, List.flatten_cons, List.flatten_nil,
      List.append_nil, List.append_assoc]
    rw [takeWithin_eq]
  refine ⟨?_, ?_⟩
  · rw [key]; exact h1
  · intro p hp
    rw [key] at hp
    exact h2 p hp

theorem queue_WF_step (s : State) (o : Op) (h : WF s) : WF (step s o) := by
  cases o with
  | enq e => exact queue_WF_enqueue e s h
  | drain m => exact queue_WF_drain m s h

theorem queue_WF_foldl (ops : List Op) (s : State) (h : WF s) : WF (ops.foldl step s) := by
  induction ops generalizing s with
  | nil => exact h
  | cons o rest ih => exact ih _ (queue_WF_step s o h)

theorem queue_WF_run (ops : List Op) : WF (run ops) := queue_WF_foldl ops init queue_WF_init

end EventQueue

theorem nodup_flatten_map_pairwise {α β : Type} (f : α → β) (l : List (List α))
    (h : ((l.flatten).map f).Nodup) :
    l.Pairwise (fun b₁ b₂ => ∀ p ∈ b₁, ∀ q ∈ b₂, f p ≠ f q) := by
  induction l with
  | nil => exact List.Pairwise.nil
  | cons b rest ih =>
    rw [List.flatten_cons, List.map_append, List.nodup_append] at h
    obtain ⟨h1, h2, h3⟩ := h
    refine List.Pairwise.cons ?_ (ih h2)
    intro b₂ hb₂ p hp q hq heq
    have hfp : f p ∈ b.map f := List.mem_map_of_mem f hp
    have hfq : f q ∈ (rest.flatten).map f :=
      List.mem_map_of_mem f (List.mem_flatten.mpr ⟨b₂, hb₂, hq⟩)
    rw [heq] at hfp
    exact h3 hfp hfq

theorem nodup_flatten_map_mem {α β : Type} (f : α → β) (l : List (List α))
    (h : ((l.flatten).map f).Nodup) :
    ∀ b ∈ l, (b.map f).Nodup := by
  induction l with
  | nil => intro b hb; simp at hb
  | cons b rest ih =>
    rw [List.flatten_cons, List.map_append, List.nodup_append] at h
    obtain ⟨h1, h2, _⟩ := h
    intro b' hb'
    rcases hb' with _ | hb'
    · exact h1
    · exact ih h2 b' (by assumption)

namespace Dispatcher

theorem enqueue_attempted (e : Event) (s : DispatcherState) :
    (enqueue e s).attempted = s.attempted := rfl

theorem enqueueAll_attempted (late : List Event) (s : DispatcherState) :
    (enqueueAll late s).attempted = s.attempted := by
  induction late generalizing s with
  | nil => rfl
  | cons e rest ih => exact ih (enqueue e s)

theorem enqueueAll_results (late : List Event) (s : DispatcherState) :
    (enqueueAll late s).results = s.results := by
  induction late generalizing s with
  | nil => rfl
  | cons e rest ih => exact ih (enqueue e s)

theorem enqueueAll_queue_map_ev (late : List Event) (s : DispatcherState) :
    (enqueueAll late s).queue.map PendingEvent.ev = s.queue.map PendingEvent.ev ++ late := by
  induction late generalizing s with
  | nil => simp [enqueueAll]
  | cons e rest ih =>
    have h := ih (enqueue e s)
    simp only [enqueueAll, List.foldl_cons] at h ⊢
    rw [h]
    simp [enqueue]

theorem enqueueAll_queue_mem (late : List Event) (s : DispatcherState)
    (q : PendingEvent) (hq : q ∈ (enqueueAll late s).queue) :
    q ∈ s.queue ∨ s.nextId ≤ q.id := by
  induction late generalizing s with
  | nil => exact Or.inl hq
  | cons e rest ih =>
    rcases ih (enqueue e s) hq with h | h
    · simp only [enqueue, List.mem_append, List.mem_singleton] at h
      rcases h with h | h
      · exact Or.inl h
      · subst h; exact Or.inr (Nat.le_refl _)
    · exact Or.inr (Nat.le_of_succ_le h)

theorem deliverAll_attempted (t : Transport) (cfg : Config) (s : DispatcherState) :
    (deliverAll t cfg s).attempted = s.attempted ++ s.queue := by
  by_cases h : s.queue.isEmpty
  · simp [deliverAll, h, List.isEmpty_iff.mp h]
  · simp [deliverAll, h]

theorem deliverAll_queue (t : Transport) (cfg : Config) (s : DispatcherState) :
    (deliverAll t cfg s).queue = [] := by
  by_cases h : s.queue.isEmpty
  · simp [deliverAll, h, List.isEmpty_iff.mp h]
  · simp [deliverAll, h]

theorem deliverAll_nextId (t : Transport) (cfg : Config) (s : DispatcherState) :
    (deliverAll t cfg s).nextId = s.nextId := by
  by_cases h : s.queue.isEmpty <;> simp [deliverAll, h]

theorem deliverAll_results_empty (t : Transport) (cfg : Config) (s : DispatcherState)
    (h : s.queue = []) : (deliverAll t cfg s).results = s.results := by
  simp [deliverAll, h]

theorem deliverAll_results_nonempty (t : Transport) (cfg : Config) (s : DispatcherState)
    (h : s.queue ≠ []) :
    (deliverAll t cfg s).results
      = s.results ++ [DeliveryWorker.Attempt t cfg (s.queue.map PendingEvent.ev)] := by
  have h' : s.queue.isEmpty = false := by
    cases hq : s.queue with
    | nil => exact absurd hq h
    | cons a l => rfl
  simp [deliverAll, h']

theorem WF_init : WF init := by
  refine ⟨?_, ?_⟩ <;> simp [WF, init]

theorem WF_enqueue (e : Event) (s : DispatcherState) (h : WF s) : WF (enqueue e s) := by
  obtain ⟨h1, h2⟩ := h
  refine ⟨?_, ?_⟩
  · have hmap : ((enqueue e s).attempted ++ (enqueue e s).queue).map PendingEvent.id
        = ((s.attempted ++ s.queue).map PendingEvent.id) ++ [s.nextId] := by
      simp [enqueue]
    rw [hmap]
    refine List.Nodup.append h1 (List.nodup_singleton _) ?_
    intro a ha hb
    rcases List.mem_map.mp ha with ⟨p, hp, hpid⟩
    have hlt := h2 p hp
    simp at hb
    omega
  · intro p hp
    simp only [enqueue, ← List.append_assoc, List.mem_append, List.mem_singleton] at hp
    rcases hp with hp | hp
    · exact Nat.lt_succ_of_lt (h2 p (List.mem_append.mpr hp))
    · subst hp; exact Nat.lt_succ_self _

theorem WF_enqueueAll (late : List Event) (s : DispatcherState) (h : WF s) :
    WF (enqueueAll late s) := by
  induction late generalizing s with
  | nil => exact h
  | cons e rest ih => exact ih (enqueue e s) (WF_enqueue e s h)

theorem WF_deliverAll (t : Transport) (cfg : Config) (s : DispatcherState) (h : WF s) :
    WF (deliverAll t cfg s) := by
  obtain ⟨h1, h2⟩ := h
  have key : (deliverAll t cfg s).attempted ++ (deliverAll t cfg s).queue
      = s.attempted ++ s.queue := by
    rw [deliverAll_attempted, deliverAll_queue, List.append_nil]
  refine ⟨?_, ?_⟩
  · rw [key]; exact h1
  · intro p hp
    rw [key] at hp
    rw [deliverAll_nextId]
    exact h2 p hp

theorem WF_Submit (t : Transport) (cfg : Config) (e : Event) (s : DispatcherState)
    (h : WF s) : WF (Submit t cfg e s) := by
  unfold Submit
  by_cases hb : cfg.batchThreshold ≤ (enqueue e s).queue.length
  · simp only [hb, if_true]
    exact WF_deliverAll t cfg _ (WF_enqueue e s h)
  · simp only [hb, if_false]
    exact WF_enqueue e s h

theorem WF_FlushWait (t : Transport) (cfg : Config) (late : List Event)
    (s : DispatcherState) (h : WF s) : WF (FlushWait t cfg late s) :=
  WF_enqueueAll late _ (WF_deliverAll t cfg s h)

theorem WF_step (t : Transport) (cfg : Config) (s : DispatcherState) (o : Op)
    (h : WF s) : WF (step t cfg s o) := by
  cases o with
  | submit e => exact WF_Submit t cfg e s h
  | flushNoWait => exact WF_deliverAll t cfg s h
  | flushWait late => exact WF_FlushWait t cfg late s h

theorem WF_foldl (t : Transport) (cfg : Config) (ops : List Op) (s : DispatcherState)
    (h : WF s) : WF (ops.foldl (step t cfg) s) := by
  induction ops generalizing s with
  | nil => exact h
  | cons o rest ih => exact ih _ (WF_step t cfg s o h)

theorem WF_run (t : Transport) (cfg : Config) (ops : List Op) : WF (run t cfg ops) :=
  WF_foldl t cfg ops init WF_init

end Dispatcher

theorem is2xx_iff (c : Nat) : is2xx c = true ↔ (200 ≤ c ∧ c < 300) := by
  simp [is2xx]

/-- A sample configuration used to exercise the theorems on concrete data. -/
def cfg0 : Config := { writeKey := "wk", host := "https://api.segment.io", batchThreshold := 10 }

/-- A sample track event. -/
def ev0 : Event := Analytics.mkTrack "u1" "signup" []

/-- A sample transport-level failure. -/
def sock0 : SocketFailure := { message := "Host not found" }

/-- A sample 500 response. -/
def resp500 : HttpResponse := { Code := 500, Message := "Internal Server Error" }

/-- A sample 200 response. -/
def resp200 : HttpResponse := { Code := 200, Message := "OK" }

/-- A transport that always fails at the socket level. -/
def tErr : Transport := fun _ => Except.error sock0

/-- A transport that always answers 500. -/
def t500 : Transport := fun _ => Except.ok resp500

/-- A transport that always answers 200. -/
def t200 : Transport := fun _ => Except.ok resp200

/-- A sample dispatcher state with one queued event. -/
def s0 : DispatcherState := { nextId := 1, queue := [⟨0, ev0⟩], attempted := [], results := [] }

/-- C1: for every sequence of dispatcher operations followed by a
`Flush(wait=true)`, every event accepted strictly before the flush has been
handed to exactly one `DeliveryWorker.Attempt` by the time the flush returns
(its identity occurs exactly once among the attempted events), while events
enqueued after the flush began are not waited upon: they remain pending and
none of them has been handed to an attempt. -/
theorem flushWait_attempts_each_prior_event_exactly_once
    (t : Transport) (cfg : Config) (ops : List Dispatcher.Op) (late : List Event)
    (p : PendingEvent)
    (hp : p ∈ (Dispatcher.run t cfg ops).attempted ++ (Dispatcher.run t cfg ops).queue) :
    (((Dispatcher.FlushWait t cfg late (Dispatcher.run t cfg ops)).attempted.map
        PendingEvent.id).count p.id = 1)
    ∧ ∀ q ∈ (Dispatcher.FlushWait t cfg late (Dispatcher.run t cfg ops)).queue,
        q.id ∉ ((Dispatcher.FlushWait t cfg late (Dispatcher.run t cfg ops)).attempted.map
          PendingEvent.id) := by
  obtain ⟨h1, h2⟩ := Dispatcher.WF_run t cfg ops
  set s := Dispatcher.run t cfg ops with hs
  have hatt : (Dispatcher.FlushWait t cfg late s).attempted = s.attempted ++ s.queue := by
    unfold Dispatcher.FlushWait
    rw [Dispatcher.enqueueAll_attempted, Dispatcher.deliverAll_attempted]
  constructor
  · rw [hatt]
    exact List.count_eq_one_of_mem h1 (List.mem_map_of_mem PendingEvent.id hp)
  · intro q hq hmem
    have hq' := Dispatcher.enqueueAll_queue_mem late _ q hq
    rw [Dispatcher.deliverAll_queue] at hq'
    rcases hq' with h | h
    · simp at h
    · rw [Dispatcher.deliverAll_nextId] at h
      rw [hatt] at hmem
      rcases List.mem_map.mp hmem with ⟨p', hp', hid⟩
      have := h2 p' hp'
      omega

theorem flushWait_attempts_each_prior_event_exactly_once_witness :
    (((Dispatcher.FlushWait tErr cfg0 [ev0]
        (Dispatcher.run tErr cfg0 [Dispatcher.Op.submit ev0])).attempted.map
        PendingEvent.id).count 0 = 1)
    ∧ ∀ q ∈ (Dispatcher.FlushWait tErr cfg0 [ev0]
        (Dispatcher.run tErr cfg0 [Dispatcher.Op.submit ev0])).queue,
        q.id ∉ ((Dispatcher.FlushWait tErr cfg0 [ev0]
          (Dispatcher.run tErr cfg0 [Dispatcher.Op.submit ev0])).attempted.map
          PendingEvent.id) :=
  flushWait_attempts_each_prior_event_exactly_once tErr cfg0
    [Dispatcher.Op.submit ev0] [ev0] ⟨0, ev0⟩ (by decide)

/-- C2: classification of a delivery attempt: a transport-level failure (no
response obtained) yields `success = false` with `errorKind = socket`; a
response with status outside the 2xx range yields `success = false` with
`errorKind = http` and `httpStatus` set to that status; a 2xx response yields
`success = true`. -/
theorem attempt_outcome_classification
    (t : Transport) (cfg : Config) (batch : List Event)
    (err : SocketFailure) (resp : HttpResponse) :
    (t (buildRequest cfg batch) = Except.error err →
      (DeliveryWorker.Attempt t cfg batch).success = false ∧
      (DeliveryWorker.Attempt t cfg batch).errorKind = some ErrorKind.socket) ∧
    (t (buildRequest cfg batch) = Except.ok resp → ¬(200 ≤ resp.Code ∧ resp.Code < 300) →
      (DeliveryWorker.Attempt t cfg batch).success = false ∧
      (DeliveryWorker.Attempt t cfg batch).errorKind = some ErrorKind.http ∧
      (DeliveryWorker.Attempt t cfg batch).httpStatus = some resp.Code) ∧
    (t (buildRequest cfg batch) = Except.ok resp → (200 ≤ resp.Code ∧ resp.Code < 300) →
      (DeliveryWorker.Attempt t cfg batch).success = true) := by
  refine ⟨?_, ?_, ?_⟩
  · intro h
    simp [DeliveryWorker.Attempt, classifyOutcome, h]
  · intro h hno
    have hfalse : is2xx resp.Code = false :=
      Bool.eq_false_iff.mpr (fun hh => hno ((is2xx_iff resp.Code).mp hh))
    simp [DeliveryWorker.Attempt, classifyOutcome, h, hfalse]
  · intro h hyes
    have htrue : is2xx resp.Code = true := (is2xx_iff resp.Code).mpr hyes
    simp [DeliveryWorker.Attempt, classifyOutcome, h, htrue]

theorem attempt_outcome_classification_witness :
    ((DeliveryWorker.Attempt tErr cfg0 [ev0]).success = false ∧
     (DeliveryWorker.Attempt tErr cfg0 [ev0]).errorKind = some ErrorKind.socket) ∧
    ((DeliveryWorker.Attempt t500 cfg0 [ev0]).success = false ∧
     (DeliveryWorker.Attempt t500 cfg0 [ev0]).errorKind = some ErrorKind.http ∧
     (DeliveryWorker.Attempt t500 cfg0 [ev0]).httpStatus = some 500) ∧
    (DeliveryWorker.Attempt t200 cfg0 [ev0]).success = true :=
  ⟨(attempt_outcome_classification tErr cfg0 [ev0] sock0 resp500).1 rfl,
   by
     have h := (attempt_outcome_classification t500 cfg0 [ev0] sock0 resp500).2.1 rfl
       (by decide)
     simpa using h,
   (attempt_outcome_classification t200 cfg0 [ev0] sock0 resp200).2.2 rfl (by decide)⟩

/-- C3: `Flush(wait=true)` always reports completion to its caller, whatever
the transport did: every snapshot event has been handed to an attempt, and
the attempt's result — success or failure alike, for any transport `t` — has
been recorded by the time the flush returns; an empty snapshot completes
without any attempt. -/
theorem flushWait_completes_regardless_of_outcome
    (t : Transport) (cfg : Config) (late : List Event) (s : DispatcherState) :
    (∀ p ∈ s.queue, p ∈ (Dispatcher.FlushWait t cfg late s).attempted) ∧
    (s.queue = [] → (Dispatcher.FlushWait t cfg late s).results = s.results) ∧
    (s.queue ≠ [] → (Dispatcher.FlushWait t cfg late s).results
        = s.results ++ [DeliveryWorker.Attempt t cfg (s.queue.map PendingEvent.ev)]) := by
  have hatt : (Dispatcher.FlushWait t cfg late s).attempted = s.attempted ++ s.queue := by
    unfold Dispatcher.FlushWait
    rw [Dispatcher.enqueueAll_attempted, Dispatcher.deliverAll_attempted]
  have hres : (Dispatcher.FlushWait t cfg late s).results
      = (Dispatcher.deliverAll t cfg s).results := by
    unfold Dispatcher.FlushWait
    rw [Dispatcher.enqueueAll_results]
  refine ⟨?_, ?_, ?_⟩
  · intro p hp
    rw [hatt]
    exact List.mem_append.mpr (Or.inr hp)
  · intro h
    rw [hres, Dispatcher.deliverAll_results_empty t cfg s h]
  · intro h
    rw [hres, Dispatcher.deliverAll_results_nonempty t cfg s h]

theorem flushWait_completes_regardless_of_outcome_witness :
    ((⟨0, ev0⟩ : PendingEvent) ∈ (Dispatcher.FlushWait tErr cfg0 [] s0).attempted) ∧
    ((Dispatcher.FlushWait tErr cfg0 [] Dispatcher.init).results = Dispatcher.init.results) ∧
    ((Dispatcher.FlushWait tErr cfg0 [] s0).results
      = s0.results ++ [DeliveryWorker.Attempt tErr cfg0 (s0.queue.map PendingEvent.ev)]) :=
  ⟨(flushWait_completes_regardless_of_outcome tErr cfg0 [] s0).1 ⟨0, ev0⟩ (by decide),
   (flushWait_completes_regardless_of_outcome tErr cfg0 [] Dispatcher.init).2.1 rfl,
   (flushWait_completes_regardless_of_outcome tErr cfg0 [] s0).2.2 (by decide)⟩

/-- C4: after a failed delivery attempt the batch is discarded and nothing is
re-queued: the queue left behind by the flush holds exactly the events
submitted after the snapshot, and none of its entries is an event of the
failed snapshot. -/
theorem failed_batch_discarded_not_requeued
    (t : Transport) (cfg : Config) (late : List Event) (s : DispatcherState)
    (hWF : Dispatcher.WF s)
    (_hfail : (DeliveryWorker.Attempt t cfg (s.queue.map PendingEvent.ev)).success = false) :
    ((Dispatcher.FlushWait t cfg late s).queue.map PendingEvent.ev = late) ∧
    ∀ q ∈ (Dispatcher.FlushWait t cfg late s).queue, ∀ p ∈ s.queue, q.id ≠ p.id := by
  obtain ⟨h1, h2⟩ := hWF
  constructor
  · unfold Dispatcher.FlushWait
    rw [Dispatcher.enqueueAll_queue_map_ev, Dispatcher.deliverAll_queue]
    simp
  · intro q hq p hp
    have hq' := Dispatcher.enqueueAll_queue_mem late _ q hq
    rw [Dispatcher.deliverAll_queue] at hq'
    rcases hq' with h | h
    · simp at h
    · rw [Dispatcher.deliverAll_nextId] at h
      have := h2 p (List.mem_append.mpr (Or.inr hp))
      omega

theorem failed_batch_discarded_not_requeued_witness :
    ((Dispatcher.FlushWait tErr cfg0 [ev0] s0).queue.map PendingEvent.ev = [ev0]) ∧
    ∀ q ∈ (Dispatcher.FlushWait tErr cfg0 [ev0] s0).queue, ∀ p ∈ s0.queue, q.id ≠ p.id :=
  failed_batch_discarded_not_requeued tErr cfg0 [ev0] s0 ⟨by decide, by decide⟩ (by decide)

/-- C5: none of the event-submitting calls (`Submit`, `Track`, `Identify`,
`Page`, `Screen`, `Group`, `Alias`) ever propagates a delivery failure back
to its caller: for every transport — including one that always fails — each
call returns `ok`; failures are observable only through the recorded delivery
results of the flush path. -/
theorem submit_calls_never_propagate_delivery_failure
    (t : Transport) (cfg : Config) (s : DispatcherState) (e : Event)
    (userId event groupId previousId : String) (props : List (String × String)) :
    (∃ s', Analytics.SubmitEvent t cfg e s = Except.ok s') ∧
    (∃ s', Analytics.Track t cfg userId event props s = Except.ok s') ∧
    (∃ s', Analytics.Identify t cfg userId props s = Except.ok s') ∧
    (∃ s', Analytics.Page t cfg event userId props s = Except.ok s') ∧
    (∃ s', Analytics.Screen t cfg event userId props s = Except.ok s') ∧
    (∃ s', Analytics.Group t cfg groupId props s = Except.ok s') ∧
    (∃ s', Analytics.Alias t cfg previousId userId s = Except.ok s') :=
  ⟨⟨_, rfl⟩, ⟨_, rfl⟩, ⟨_, rfl⟩, ⟨_, rfl⟩, ⟨_, rfl⟩, ⟨_, rfl⟩, ⟨_, rfl⟩⟩

/-- C6: `EventCodec.Serialize` is deterministic and side-effect free:
serializing the same write key and the same event sequence twice yields
byte-identical output (the codec is a pure function of its arguments). -/
theorem serialize_deterministic (k₁ k₂ : String) (b₁ b₂ : List Event)
    (hk : k₁ = k₂) (hb : b₁ = b₂) : Serialize k₁ b₁ = Serialize k₂ b₂ := by
  rw [hk, hb]

theorem serialize_deterministic_witness :
    Serialize "wk" [ev0] = Serialize "wk" [ev0] :=
  serialize_deterministic "wk" "wk" [ev0] [ev0] rfl rfl

/-- C7: at-most-once extraction from the `EventQueue`: across any sequence of
enqueues and `DrainUpTo` calls, the batches removed by the successive drains
are pairwise disjoint (an event instance removed by one drain is never
returned by any later drain) and no drain returns the same instance twice;
the queue operations never consult delivery outcomes, so this holds
independently of downstream delivery success. -/
theorem drainUpTo_extraction_at_most_once (ops : List EventQueue.Op) :
    List.Pairwise (fun b₁ b₂ => ∀ p ∈ b₁, ∀ q ∈ b₂, p.id ≠ q.id)
      (EventQueue.run ops).history ∧
    ∀ b ∈ (EventQueue.run ops).history, (b.map PendingEvent.id).Nodup := by
  obtain ⟨h1, _⟩ := EventQueue.queue_WF_run ops
  rw [List.map_append, List.nodup_append] at h1
  obtain ⟨hflat, _, _⟩ := h1
  exact ⟨nodup_flatten_map_pairwise PendingEvent.id _ hflat,
         nodup_flatten_map_mem PendingEvent.id _ hflat⟩

theorem drainUpTo_extraction_at_most_once_witness :
    List.Pairwise (fun b₁ b₂ => ∀ p ∈ b₁, ∀ q ∈ b₂, p.id ≠ q.id)
      (EventQueue.run [EventQueue.Op.enq ev0, EventQueue.Op.drain 1000,
        EventQueue.Op.enq ev0, EventQueue.Op.drain 1000]).history ∧
    ∀ b ∈ (EventQueue.run [EventQueue.Op.enq ev0, EventQueue.Op.drain 1000,
        EventQueue.Op.enq ev0, EventQueue.Op.drain 1000]).history,
      (b.map PendingEvent.id).Nodup :=
  drainUpTo_extraction_at_most_once
    [EventQueue.Op.enq ev0, EventQueue.Op.drain 1000,
     EventQueue.Op.enq ev0, EventQueue.Op.drain 1000]

/-- C8: every HTTP request built for a delivery attempt has method POST, URL
equal to the configured host concatenated with the fixed API path, headers
carrying a content-type and the basic-auth-style write-key credential, and a
body equal to the `EventCodec` serialization of the batch; the attempt
invokes the transport on exactly that request. -/
theorem delivery_request_shape (t : Transport) (cfg : Config) (batch : List Event) :
    (buildRequest cfg batch).Method = "POST" ∧
    (buildRequest cfg batch).URL = cfg.host ++ apiPath ∧
    ("Content-Type", "application/json") ∈ (buildRequest cfg batch).Headers ∧
    ("Authorization", basicAuth cfg.writeKey) ∈ (buildRequest cfg batch).Headers ∧
    (buildRequest cfg batch).Body = Serialize cfg.writeKey batch ∧
    DeliveryWorker.Attempt t cfg batch = classifyOutcome (t (buildRequest cfg batch)) := by
  refine ⟨rfl, rfl, ?_, ?_, rfl, rfl⟩ <;> simp [buildRequest]

/-- C9: every `HttpResponse` a handler produces either carries the genuine
HTTP status code returned by the server, or — when the request could not be
delivered or no valid response was obtained — carries `Code = 0` together
with a non-empty explanatory `Message`. -/
theorem handler_response_code_invariant (o : RawOutcome) :
    (∃ r, o = some r ∧ (fillResponse o).Code = r.Code) ∨
    ((fillResponse o).Code = 0 ∧ (fillResponse o).Message ≠ "") := by
  cases o with
  | none =>
    right
    refine ⟨rfl, ?_⟩
    decide
  | some r => exact Or.inl ⟨r, rfl, rfl⟩

/-- C10: an event's kind is fixed by the constructor and immutable
thereafter — assigning any of the public fields leaves it unchanged — and the
`Type()` discriminator is exactly the string of the kind the event was
constructed with, the six kinds having pairwise distinct discriminators. -/
theorem event_kind_fixed_and_discriminator :
    (∀ t : EventType, (Event.create t).type = t) ∧
    (∀ (e : Event) (t : EventType), e.type = t → e.typeString = t.typeName) ∧
    (∀ t₁ t₂ : EventType, t₁.typeName = t₂.typeName → t₁ = t₂) ∧
    (∀ (e : Event) (v : String),
      (e.withUserId v).type = e.type ∧ (e.withEvent v).type = e.type ∧
      (e.withGroupId v).type = e.type ∧ (e.withAnonymousId v).type = e.type ∧
      (e.withPreviousId v).type = e.type) ∧
    (∀ (e : Event) (ps : List (String × String)), (e.withProperties ps).type = e.type) := by
  refine ⟨fun t => rfl, ?_, ?_, fun e v => ⟨rfl, rfl, rfl, rfl, rfl⟩, fun e ps => rfl⟩
  · intro e t h
    simp [Event.typeString, h]
  · intro t₁ t₂ h
    cases t₁ <;> cases t₂ <;> first | rfl | exact absurd h (by decide)

theorem event_kind_fixed_and_discriminator_witness :
    (Event.create EventType.EVENT_TYPE_TRACK).typeString
      = EventType.typeName EventType.EVENT_TYPE_TRACK ∧
    EventType.EVENT_TYPE_PAGE = EventType.EVENT_TYPE_PAGE ∧
    ((Event.create EventType.EVENT_TYPE_TRACK).withUserId "u1").type
      = (Event.create EventType.EVENT_TYPE_TRACK).type :=
  ⟨event_kind_fixed_and_discriminator.2.1 (Event.create EventType.EVENT_TYPE_TRACK)
      EventType.EVENT_TYPE_TRACK rfl,
   event_kind_fixed_and_discriminator.2.2.1 EventType.EVENT_TYPE_PAGE
      EventType.EVENT_TYPE_PAGE rfl,
   (event_kind_fixed_and_discriminator.2.2.2.1 (Event.create EventType.EVENT_TYPE_TRACK)
      "u1").1⟩

end Segment
